import Mathlib

/-!
Shallow embedding of `src/server/python/worker.py` (the miaoji transcription
worker).  The recognition engine (`faster_whisper.WhisperModel`) and the file
system are external collaborators; they enter the embedding as explicit
function parameters (`Engine`, `fs`).  Timestamps, durations and percentages
are modelled as rationals, JSON-absent fields as `Option`, raised exceptions
as `Except.error`.  All definitions below are translated from the source file;
line numbers in doc comments refer to `worker.py`.
-/

namespace Miaoji

/-- One recognized speech span as yielded by the engine's lazy segment
sequence: start/end timestamps in seconds and the recognized text. -/
structure Segment where
  start : ℚ
  «end» : ℚ
  text : String
deriving DecidableEq

/-- The `vad_parameters` dictionary of `transcribe_kwargs` (worker.py
lines 47-57). -/
structure VadParameters where
  threshold : ℚ
  min_silence_duration_ms : ℕ
  speech_pad_ms : ℕ
deriving DecidableEq

/-- The `options` dictionary handed to `transcribe_with_model`.  Each field is
`none` when the corresponding key is absent (so that `opts.get(k)` returns
Python `None`). -/
structure Opts where
  language : Option String := none
  task : Option String := none
  initial_prompt : Option String := none
  condition_on_previous_text : Option Bool := none
  compression_ratio_threshold : Option ℚ := none
deriving DecidableEq

/-- The `transcribe_kwargs` dictionary built inside `transcribe_with_model`
(worker.py lines 42-82), i.e. the canonical transcription configuration
passed to the engine.

`compression_ratio_threshold` is encoded as `Option (Option ℚ)`: the outer
layer records whether the key is present in the dictionary at all (`none`
would mean "key absent, engine default applies"), the inner layer is the
Python value stored under the key (`none` = Python `None`, which tells the
engine to disable the compression-ratio check).  The source always places the
key in the dictionary: first with value `None` (line 77), overwritten by the
caller's value when that value is not `None` (lines 81-82). -/
structure TranscribeKwargs where
  beam_size : ℕ
  language : Option String
  vad_filter : Bool
  vad_parameters : VadParameters
  task : String
  initial_prompt : String
  condition_on_previous_text : Bool
  no_speech_threshold : Option ℚ
  compression_ratio_threshold : Option (Option ℚ)
  log_prob_threshold : Option ℚ
deriving DecidableEq

/-- Python `v or d` for an optional string: both `None` and `""` are falsy
(worker.py line 60: `opts.get("initial_prompt") or ""`). -/
def orString (v : Option String) (d : String) : String :=
  match v with
  | none => d
  | some s => if s = "" then d else s

/-- Construction of the `transcribe_kwargs` dictionary from the options
(worker.py lines 40-82).  Note that line 41 reads
`opts.get("condition_on_previous_text")` into a local variable which is never
used afterwards: line 65 hardcodes the flag to `False`.  Lines 72/77/79 store
Python `None` under the two confidence-floor keys and the compression-ratio
key; lines 81-82 overwrite the latter when the caller supplied a value. -/
def transcribe_kwargs (opts : Opts) : TranscribeKwargs :=
  let base : TranscribeKwargs :=
    { beam_size := 5
      language := opts.language
      vad_filter := true
      vad_parameters :=
        { threshold := 0.15
          min_silence_duration_ms := 300
          speech_pad_ms := 200 }
      task := opts.task.getD "transcribe"
      initial_prompt := orString opts.initial_prompt ""
      condition_on_previous_text := false
      no_speech_threshold := none
      compression_ratio_threshold := some none
      log_prob_threshold := none }
  if opts.compression_ratio_threshold ≠ none then
    { base with compression_ratio_threshold := some opts.compression_ratio_threshold }
  else base

/-- A message delivered through one of the two callbacks of
`transcribe_with_model` (`on_progress` / `on_segment`), in delivery order. -/
inductive Event where
  | progress (pct : ℚ)
  | segment (seg : Segment)
deriving DecidableEq

/-- The mutable state of the drain loop of `transcribe_with_model`
(worker.py lines 89-109): `result_segments`, `full_text`, `last_pct`, plus
the trace of callback invocations performed so far. -/
structure DrainState where
  result_segments : List Segment
  full_text : String
  last_pct : ℚ
  events : List Event
deriving DecidableEq

/-- Initial drain state (worker.py lines 89-91): empty accumulators and
`last_pct = -1`. -/
def initState : DrainState :=
  { result_segments := [], full_text := "", last_pct := -1, events := [] }

/-- Python `round(x, 1)`: rounding to one decimal place. -/
def round1 (x : ℚ) : ℚ := ((round (10 * x) : ℤ) : ℚ) / 10

/-- The progress percentage computed for one segment (worker.py line 106):
`min(100.0, round((segment.end / total_duration) * 100, 1))`. -/
def pctOf (total_duration : ℚ) (seg : Segment) : ℚ :=
  min 100 (round1 (seg.«end» / total_duration * 100))

/-- One iteration of the `for segment in segments` loop (worker.py
lines 93-109): append the segment and its text, invoke `on_segment` when a
segment sink is present, then, when a progress sink is present and
`total_duration > 0` and the computed percentage strictly exceeds `last_pct`,
update `last_pct` and invoke `on_progress`. -/
def drainStep (hasSegment hasProgress : Bool) (total_duration : ℚ)
    (st : DrainState) (seg : Segment) : DrainState :=
  let pct := pctOf total_duration seg
  let fire : Bool := hasProgress && decide (0 < total_duration) && decide (st.last_pct < pct)
  { result_segments := st.result_segments ++ [seg]
    full_text := st.full_text ++ seg.text
    last_pct := if fire then pct else st.last_pct
    events := st.events
      ++ (if hasSegment then [Event.segment seg] else [])
      ++ (if fire then [Event.progress pct] else []) }

/-- The whole drain loop over the segments the engine yields. -/
def drain (hasSegment hasProgress : Bool) (total_duration : ℚ)
    (segs : List Segment) (st : DrainState) : DrainState :=
  segs.foldl (drainStep hasSegment hasProgress total_duration) st

/-- The metadata object returned by the engine next to the segment sequence
(`info` in worker.py line 84). -/
structure TInfo where
  language : String
  language_probability : ℚ
  duration : ℚ
deriving DecidableEq

/-- Behaviour of one engine call: the segments its lazy sequence yields
before completing, and — when `err` is set — the error the sequence raises
after yielding them (errors of the lazy sequence surface during iteration). -/
structure EngineRun where
  segs : List Segment
  err : Option String
  info : TInfo
deriving DecidableEq

/-- The engine collaborator: given audio path and canonical configuration it
produces one `EngineRun` (worker.py line 84: `model.transcribe`). -/
abbrev Engine := String → TranscribeKwargs → EngineRun

/-- The dictionary returned by `transcribe_with_model` on success
(worker.py lines 111-117). -/
structure TResult where
  language : String
  language_probability : ℚ
  duration : ℚ
  segments : List Segment
  text : String
deriving DecidableEq

/-- Decidable equality for `Except`, needed to evaluate outcome equalities on
concrete inputs. -/
instance exceptDecEq {ε α : Type} [DecidableEq ε] [DecidableEq α] :
    DecidableEq (Except ε α) := fun x y =>
  match x, y with
  | Except.ok a, Except.ok b =>
      if h : a = b then Decidable.isTrue (by rw [h])
      else Decidable.isFalse (by intro hh; cases hh; exact h rfl)
  | Except.ok _, Except.error _ => Decidable.isFalse (by intro h; cases h)
  | Except.error _, Except.ok _ => Decidable.isFalse (by intro h; cases h)
  | Except.error a, Except.error b =>
      if h : a = b then Decidable.isTrue (by rw [h])
      else Decidable.isFalse (by intro hh; cases hh; exact h rfl)

/-- Observable outcome of one call to `transcribe_with_model`: whether the
engine's transcribe operation was invoked, the callback trace, and the
returned value or raised exception. -/
structure Outcome where
  engineCalled : Bool
  events : List Event
  result : Except String TResult
deriving DecidableEq

/-- `transcribe_with_model` (worker.py lines 28-117).  `fs` is the file
system collaborator (`os.path.exists`).  `hasProgress` / `hasSegment` record
whether the corresponding callback argument is not `None`. -/
def transcribe_with_model (fs : String → Bool) (engine : Engine)
    (file_path : String) (total_duration : ℚ)
    (hasProgress hasSegment : Bool) (options : Option Opts) : Outcome :=
  if fs file_path = false then
    { engineCalled := false, events := [],
      result := Except.error ("File not found: " ++ file_path) }
  else
    let opts := options.getD {}
    let kwargs := transcribe_kwargs opts
    let run := engine file_path kwargs
    let st := drain hasSegment hasProgress total_duration run.segs initState
    match run.err with
    | some e => { engineCalled := true, events := st.events, result := Except.error e }
    | none =>
      { engineCalled := true, events := st.events,
        result := Except.ok
          { language := run.info.language
            language_probability := run.info.language_probability
            duration := run.info.duration
            segments := st.result_segments
            text := st.full_text } }

/-- One decoded request line of the server protocol (worker.py §run_server).
Each field is `none` when the key is absent from the JSON object. -/
structure Payload where
  id : Option ℕ := none
  audio_file : Option String := none
  duration : Option ℚ := none
  initial_prompt : Option String := none
  task : Option String := none
  language : Option String := none
  condition_on_previous_text : Option Bool := none
  compression_ratio_threshold : Option ℚ := none
deriving DecidableEq

/-- The `options` dictionary built by `run_server` (worker.py
lines 169-175). -/
def options_of_payload (p : Payload) : Opts :=
  { initial_prompt := some (p.initial_prompt.getD "")
    task := some (p.task.getD "transcribe")
    language := p.language
    condition_on_previous_text := some (p.condition_on_previous_text.getD true)
    compression_ratio_threshold := p.compression_ratio_threshold }

/-- `total_duration = float(payload.get("duration") or 0)` (worker.py
line 152); `or 0` maps both an absent key and a falsy value to `0`. -/
def durationOf (p : Payload) : ℚ :=
  match p.duration with
  | none => 0
  | some d => d

/-- One line printed by `run_server`: the three tagged message kinds
(worker.py lines 156-162 and 177-181). -/
inductive WireMsg where
  | progress (id : Option ℕ) (progress_pct : ℚ)
  | segment (id : Option ℕ) (data : Segment)
  | result (id : Option ℕ) (res : TResult)
  | result_error (id : Option ℕ) (error : String)
deriving DecidableEq

/-- The closures `send_progress` / `send_segment` (worker.py lines 156-162):
they tag the callback payload with the request id. -/
def toWire (req_id : Option ℕ) : Event → WireMsg
  | Event.progress p => WireMsg.progress req_id p
  | Event.segment s => WireMsg.segment req_id s

/-- Handling of one non-blank input line in server mode (worker.py
lines 147-181).  `input` is the outcome of `json.loads`: `Except.error`
carries the decode error's message (in which case `payload` stays `None` and
the error envelope gets a null id).  A parsed payload without a truthy
`audio_file` raises `ValueError("audio_file is required")`, caught by the
same handler with the id preserved. -/
def handleLine (fs : String → Bool) (engine : Engine)
    (input : Except String Payload) : List WireMsg :=
  match input with
  | Except.error e => [WireMsg.result_error none e]
  | Except.ok p =>
    match p.audio_file with
    | none => [WireMsg.result_error p.id "audio_file is required"]
    | some audio_file =>
      if audio_file = "" then [WireMsg.result_error p.id "audio_file is required"]
      else
        let total_duration := durationOf p
        let out := transcribe_with_model fs engine audio_file total_duration
          (decide (0 < total_duration)) true (some (options_of_payload p))
        out.events.map (toWire p.id) ++
          (match out.result with
           | Except.ok r => [WireMsg.result p.id r]
           | Except.error e => [WireMsg.result_error p.id e])

/-- Outcome of `json.loads` on one non-blank line (worker.py line 149):
the call raises (decode failure, with the exception's message), or it yields
a non-object JSON value (carrying its Python truthiness and the message of
the `AttributeError` that `payload.get` raises on it), or it yields an
object, decoded into a `Payload`. -/
inductive LineInput where
  | decodeFailure (e : String)
  | nonDict (truthy : Bool) (attrError : String)
  | dict (p : Payload)

/-- Result of handling one non-blank line: the protocol messages printed for
it, or an exception escaping the `except` handler itself, which terminates
the process. -/
inductive LineOutcome where
  | ok (msgs : List WireMsg)
  | crash

/-- Full handling of one non-blank line (worker.py lines 147-181), covering
non-object payloads.  When `json.loads` yields a non-object value,
`payload.get("audio_file")` (line 150) raises `AttributeError`; the handler
at line 179 then evaluates `payload.get("id") if payload else None`: for a
truthy non-dict payload (`[1,2,3]`, `"abc"`, `5`, `true`) the `payload.get`
call raises `AttributeError` again, uncaught, and the process dies having
printed nothing for the request; for a falsy non-dict payload (`null`, `[]`,
`0`, `false`, `""`) the conditional takes the `None` branch and a single
error envelope with a null id is printed.  Object payloads and decode
failures follow `handleLine`. -/
def handleRawLine (fs : String → Bool) (engine : Engine) (input : LineInput) :
    LineOutcome :=
  match input with
  | LineInput.decodeFailure e => LineOutcome.ok (handleLine fs engine (Except.error e))
  | LineInput.nonDict truthy attrError =>
      if truthy then LineOutcome.crash
      else LineOutcome.ok [WireMsg.result_error none attrError]
  | LineInput.dict p => LineOutcome.ok (handleLine fs engine (Except.ok p))

/-- One raw line read from stdin in server mode: blank (skipped, worker.py
lines 143-145) or a content line with its decode outcome. -/
inductive RawLine where
  | blank
  | line (input : LineInput)

/-- The request loop of `run_server` (worker.py lines 139-181) over a finite
input stream: the messages printed for each line, concatenated; the stream
ends when stdin does, or early when a line's handling raises an uncaught
exception — the process terminates and later lines are never read. -/
def run_server (fs : String → Bool) (engine : Engine) : List RawLine → List WireMsg
  | [] => []
  | RawLine.blank :: rest => run_server fs engine rest
  | RawLine.line input :: rest =>
      match handleRawLine fs engine input with
      | LineOutcome.ok msgs => msgs ++ run_server fs engine rest
      | LineOutcome.crash => []

/-- One line printed in one-shot mode: a bare (untagged) result or error
object; the constructors for tagged streaming events exist only so that
their absence is expressible. -/
inductive OneShotMsg where
  | result (res : TResult)
  | error (msg : String)
  | progress (pct : ℚ)
  | segment (seg : Segment)
deriving DecidableEq

/-- Injection of callback events into one-shot output (no such events are
ever produced in one-shot mode; see the theorems below). -/
def toOneShot : Event → OneShotMsg
  | Event.progress p => OneShotMsg.progress p
  | Event.segment s => OneShotMsg.segment s

/-- `run_single_file` (worker.py lines 119-126): load the model, transcribe
with default arguments (duration `0`, both callbacks `None`, options `None`),
print the result; any exception is printed as
`{"error": "Transcription failed: ..."}`.  `modelLoad` is the outcome of
`create_model()`. -/
def run_single_file (modelLoad : Except String Unit) (fs : String → Bool)
    (engine : Engine) (audio_file : String) : List OneShotMsg :=
  match modelLoad with
  | Except.error e => [OneShotMsg.error ("Transcription failed: " ++ e)]
  | Except.ok _ =>
    let out := transcribe_with_model fs engine audio_file 0 false false none
    out.events.map toOneShot ++
      (match out.result with
       | Except.ok r => [OneShotMsg.result r]
       | Except.error e => [OneShotMsg.error ("Transcription failed: " ++ e)])

/-- The progress percentages contained in a callback trace, in order. -/
def progressOf (events : List Event) : List ℚ :=
  events.filterMap (fun e =>
    match e with
    | Event.progress p => some p
    | Event.segment _ => none)

/-- The texts of the segment events contained in a callback trace, in
order. -/
def segmentTextsOf (events : List Event) : List String :=
  events.filterMap (fun e =>
    match e with
    | Event.segment s => some s.text
    | Event.progress _ => none)

/-- Whether a wire message is result-typed (success or error envelope). -/
def isResultMsg : WireMsg → Bool
  | WireMsg.result _ _ => true
  | WireMsg.result_error _ _ => true
  | WireMsg.progress _ _ => false
  | WireMsg.segment _ _ => false

/-- The request id a wire message references. -/
def wireId : WireMsg → Option ℕ
  | WireMsg.progress i _ => i
  | WireMsg.segment i _ => i
  | WireMsg.result i _ => i
  | WireMsg.result_error i _ => i

/-- The id the error envelope of a line must carry: the parsed payload's id,
or null when the line did not parse (worker.py line 179). -/
def lineReqId : Except String Payload → Option ℕ
  | Except.error _ => none
  | Except.ok p => p.id

/-! Helper lemmas about the drain loop. -/

theorem join_cons (a : String) (l : List String) :
    String.join (a :: l) = a ++ String.join l := by
  simp [String.join_eq]
  rfl

theorem drainStep_full_text (hs hp : Bool) (t : ℚ) (st : DrainState) (seg : Segment) :
    (drainStep hs hp t st seg).full_text = st.full_text ++ seg.text := rfl

theorem drainStep_result_segments (hs hp : Bool) (t : ℚ) (st : DrainState) (seg : Segment) :
    (drainStep hs hp t st seg).result_segments = st.result_segments ++ [seg] := rfl

theorem drain_full_text (hs hp : Bool) (t : ℚ) :
    ∀ (segs : List Segment) (st : DrainState),
      (drain hs hp t segs st).full_text =
        st.full_text ++ String.join (segs.map Segment.text)
  | [], st => by simp [drain, String.join]
  | seg :: rest, st => by
      have ih := drain_full_text hs hp t rest (drainStep hs hp t st seg)
      simp only [drain, List.foldl_cons] at ih ⊢
      rw [ih, drainStep_full_text, List.map_cons, join_cons, String.append_assoc]

theorem drain_result_segments (hs hp : Bool) (t : ℚ) :
    ∀ (segs : List Segment) (st : DrainState),
      (drain hs hp t segs st).result_segments = st.result_segments ++ segs
  | [], st => by simp [drain]
  | seg :: rest, st => by
      have ih := drain_result_segments hs hp t rest (drainStep hs hp t st seg)
      simp only [drain, List.foldl_cons] at ih ⊢
      rw [ih, drainStep_result_segments, List.append_assoc, List.singleton_append]

/-- Whether the progress callback fires for one segment. -/
def fires (hp : Bool) (t : ℚ) (st : DrainState) (seg : Segment) : Bool :=
  hp && decide (0 < t) && decide (st.last_pct < pctOf t seg)

theorem drainStep_events (hs hp : Bool) (t : ℚ) (st : DrainState) (seg : Segment) :
    (drainStep hs hp t st seg).events =
      st.events ++ (if hs then [Event.segment seg] else [])
        ++ (if fires hp t st seg then [Event.progress (pctOf t seg)] else []) := rfl

theorem drainStep_last_pct (hs hp : Bool) (t : ℚ) (st : DrainState) (seg : Segment) :
    (drainStep hs hp t st seg).last_pct =
      (if fires hp t st seg then pctOf t seg else st.last_pct) := rfl

theorem progressOf_append (a b : List Event) :
    progressOf (a ++ b) = progressOf a ++ progressOf b := by
  simp [progressOf]

theorem segmentTextsOf_append (a b : List Event) :
    segmentTextsOf (a ++ b) = segmentTextsOf a ++ segmentTextsOf b := by
  simp [segmentTextsOf]

theorem progressOf_drainStep (hs hp : Bool) (t : ℚ) (st : DrainState) (seg : Segment) :
    progressOf (drainStep hs hp t st seg).events =
      progressOf st.events
        ++ (if fires hp t st seg then [pctOf t seg] else []) := by
  rw [drainStep_events, progressOf_append, progressOf_append]
  cases hs <;> cases h : fires hp t st seg <;> simp [progressOf]

theorem segmentTextsOf_drainStep (hp : Bool) (t : ℚ) (st : DrainState) (seg : Segment) :
    segmentTextsOf (drainStep true hp t st seg).events =
      segmentTextsOf st.events ++ [seg.text] := by
  rw [drainStep_events, segmentTextsOf_append, segmentTextsOf_append]
  cases h : fires hp t st seg <;> simp [segmentTextsOf]

theorem segmentTextsOf_drain (hp : Bool) (t : ℚ) :
    ∀ (segs : List Segment) (st : DrainState),
      segmentTextsOf (drain true hp t segs st).events =
        segmentTextsOf st.events ++ segs.map Segment.text
  | [], st => by simp [drain]
  | seg :: rest, st => by
      have ih := segmentTextsOf_drain hp t rest (drainStep true hp t st seg)
      simp only [drain, List.foldl_cons] at ih ⊢
      rw [ih, segmentTextsOf_drainStep, List.map_cons, List.append_assoc,
        List.singleton_append]

theorem drain_events_off (t : ℚ) :
    ∀ (segs : List Segment) (st : DrainState),
      (drain false false t segs st).events = st.events
  | [], st => by simp [drain]
  | seg :: rest, st => by
      have ih := drain_events_off t rest (drainStep false false t st seg)
      simp only [drain, List.foldl_cons] at ih ⊢
      rw [ih, drainStep_events]
      simp [fires]

/-- Invariant of the drain loop: the progress percentages delivered so far
are strictly increasing and all bounded by `last_pct`. -/
def ProgInv (st : DrainState) : Prop :=
  List.Chain' (fun a b => a < b) (progressOf st.events) ∧
  ∀ q ∈ progressOf st.events, q ≤ st.last_pct

theorem drainStep_ProgInv (hs hp : Bool) (t : ℚ) (st : DrainState) (seg : Segment)
    (h : ProgInv st) : ProgInv (drainStep hs hp t st seg) := by
  obtain ⟨hc, hb⟩ := h
  constructor
  · rw [progressOf_drainStep]
    cases hf : fires hp t st seg
    · simpa using hc
    · have hlt : st.last_pct < pctOf t seg := by
        have := hf
        simp [fires] at this
        exact this.2
      simp only [if_pos rfl]
      refine List.chain'_append.mpr ⟨hc, List.chain'_singleton _, ?_⟩
      intro x hx y hy
      simp at hy
      subst hy
      exact lt_of_le_of_lt (hb x (List.mem_of_mem_getLast? hx)) hlt
  · rw [progressOf_drainStep, drainStep_last_pct]
    cases hf : fires hp t st seg
    · simpa using hb
    · have hlt : st.last_pct < pctOf t seg := by
        have := hf
        simp [fires] at this
        exact this.2
      simp only [if_pos rfl]
      intro q hq
      rcases List.mem_append.mp hq with hq | hq
      · exact le_of_lt (lt_of_le_of_lt (hb q hq) hlt)
      · simp at hq
        subst hq
        exact le_refl _

theorem drain_ProgInv (hs hp : Bool) (t : ℚ) :
    ∀ (segs : List Segment) (st : DrainState), ProgInv st →
      ProgInv (drain hs hp t segs st)
  | [], st, h => h
  | seg :: rest, st, h => by
      simp only [drain, List.foldl_cons]
      exact drain_ProgInv hs hp t rest _ (drainStep_ProgInv hs hp t st seg h)

theorem progressOf_drain_mem (hs hp : Bool) (t : ℚ) :
    ∀ (segs : List Segment) (st : DrainState) (q : ℚ),
      q ∈ progressOf (drain hs hp t segs st).events →
      q ∈ progressOf st.events ∨ ∃ s ∈ segs, q = pctOf t s
  | [], st, q, hq => Or.inl (by simpa [drain] using hq)
  | seg :: rest, st, q, hq => by
      simp only [drain, List.foldl_cons] at hq
      rcases progressOf_drain_mem hs hp t rest _ q hq with hq | ⟨s, hs', he⟩
      · rw [progressOf_drainStep] at hq
        rcases List.mem_append.mp hq with hq | hq
        · exact Or.inl hq
        · cases hf : fires hp t st seg <;> rw [hf] at hq <;> simp at hq
          exact Or.inr ⟨seg, by simp, hq⟩
      · exact Or.inr ⟨s, by simp [hs'], he⟩

theorem round1_nonneg (x : ℚ) (h : 0 ≤ x) : 0 ≤ round1 x := by
  unfold round1
  have h10 : (0 : ℚ) ≤ 10 * x := by linarith
  have : (0 : ℤ) ≤ round (10 * x) := by
    rw [round_eq]
    exact Int.le_floor.mpr (by push_cast; linarith)
  positivity

theorem pctOf_bounds (t : ℚ) (s : Segment) (ht : 0 < t) (he : 0 ≤ s.«end») :
    0 ≤ pctOf t s ∧ pctOf t s ≤ 100 := by
  unfold pctOf
  constructor
  · apply le_min (by norm_num)
    apply round1_nonneg
    positivity
  · exact min_le_left _ _

/-! Helper lemmas about `transcribe_with_model` and the wire layer. -/

theorem transcribe_events (fs : String → Bool) (engine : Engine) (file_path : String)
    (total_duration : ℚ) (hp hs : Bool) (options : Option Opts)
    (h : fs file_path = true) :
    (transcribe_with_model fs engine file_path total_duration hp hs options).events =
      (drain hs hp total_duration
        (engine file_path (transcribe_kwargs (options.getD {}))).segs initState).events := by
  unfold transcribe_with_model
  rw [if_neg (by simp [h])]
  dsimp only
  split <;> rfl

theorem transcribe_events_off (fs : String → Bool) (engine : Engine) (file_path : String)
    (total_duration : ℚ) (options : Option Opts) :
    (transcribe_with_model fs engine file_path total_duration false false options).events = [] := by
  by_cases h : fs file_path = false
  · unfold transcribe_with_model
    rw [if_pos h]
  · rw [transcribe_events fs engine file_path total_duration false false options
      (by revert h; cases fs file_path <;> simp)]
    rw [drain_events_off]
    rfl

theorem toWire_not_result (i : Option ℕ) (e : Event) : isResultMsg (toWire i e) = false := by
  cases e <;> rfl

theorem wireId_toWire (i : Option ℕ) (e : Event) : wireId (toWire i e) = i := by
  cases e <;> rfl

/-! Concrete collaborator stubs used to instantiate the theorems below. -/

/-- File system on which every path exists. -/
def fsAll : String → Bool := fun _ => true

/-- File system on which no path exists. -/
def fsNone : String → Bool := fun _ => false

/-- Metadata returned by the stub engine. -/
def stubInfo : TInfo := { language := "en", language_probability := 1, duration := 10 }

/-- The two segments of the specification's end-to-end example (§8). -/
def stubSegs : List Segment :=
  [{ start := 0, «end» := 4, text := "a" }, { start := 4, «end» := 9, text := "b" }]

/-- Stub engine that yields the two example segments and completes. -/
def stubEngine : Engine := fun _ _ => { segs := stubSegs, err := none, info := stubInfo }

/-- Stub engine that yields the two example segments and then raises. -/
def stubEngineFail : Engine := fun _ _ =>
  { segs := stubSegs, err := some "boom", info := stubInfo }

/-- The request of the specification's end-to-end example (§8). -/
def payload1 : Payload := { id := some 1, audio_file := some "a.wav", duration := some 10 }

/-- A parsed request whose `audio_file` key is absent. -/
def payloadNoAudio : Payload := { id := some 2 }

/-- A parsed request naming an audio path that does not exist on `fsNone`. -/
def payloadMissingFile : Payload := { id := some 3, audio_file := some "missing.wav" }

/-! Claim theorems. -/

/-- C1, counterexample: the claim says a request that omits
`condition_on_previous_text` resolves to `true` in the canonical
configuration.  On the code it does not: `payload1` omits the field, yet the
configuration's flag is not `true` (worker.py line 65 hardcodes `False`,
discarding the value read at line 41 and the default applied at
line 173). -/
theorem claim_C1_counterexample :
    ¬ (transcribe_kwargs (options_of_payload payload1)).condition_on_previous_text = true := by
  decide

/-- C1, amended: for every request, the canonical transcription
configuration's `condition_on_previous_text` flag is `false`, regardless of
whether the caller supplied a value and of which value it supplied; the
caller-supplied value (defaulted to true by the request loop) is read but
discarded. -/
theorem claim_C1 (opts : Opts) :
    (transcribe_kwargs opts).condition_on_previous_text = false := by
  unfold transcribe_kwargs
  split <;> rfl

/-- C3, counterexample: the claim says a request that omits
`compression_ratio_threshold` leaves the canonical configuration without an
override for it (outer `none` in the encoding: key absent, engine default in
effect).  On the code it does not: `payload1` omits the field, yet the
configuration carries the key with an explicit `None` value (worker.py
line 77), which disables the engine's compression-ratio check rather than
leaving its default in effect. -/
theorem claim_C3_counterexample :
    ¬ (transcribe_kwargs (options_of_payload payload1)).compression_ratio_threshold = none := by
  decide

/-- C3, amended: the canonical configuration always carries an explicit entry
for `compression_ratio_threshold`: the Python value `None` (disabling the
engine's check) when the caller omits the field, and the caller's exact value,
passed through unchanged, when one is supplied. -/
theorem claim_C3 (opts : Opts) :
    (transcribe_kwargs opts).compression_ratio_threshold =
      some opts.compression_ratio_threshold := by
  unfold transcribe_kwargs
  by_cases h : opts.compression_ratio_threshold = none
  · rw [if_neg (by simp [h])]
    rw [h]
  · rw [if_pos (by simp [h])]

/-- C8: for every request, regardless of caller-supplied fields, the
canonical configuration disables both confidence floors (`no_speech_threshold`
and `log_prob_threshold` are Python `None`), fixes the voice-activity
parameters to the tuned constants (threshold `0.15`, minimum silence
`300` ms, speech padding `200` ms) with the VAD filter enabled, and fixes the
beam width to `5`.  Determinism is immediate: `transcribe_kwargs` is a pure
function of the request's options. -/
theorem claim_C8 (opts : Opts) :
    (transcribe_kwargs opts).no_speech_threshold = none ∧
    (transcribe_kwargs opts).log_prob_threshold = none ∧
    (transcribe_kwargs opts).vad_filter = true ∧
    (transcribe_kwargs opts).vad_parameters =
      { threshold := 0.15, min_silence_duration_ms := 300, speech_pad_ms := 200 } ∧
    (transcribe_kwargs opts).beam_size = 5 := by
  unfold transcribe_kwargs
  split <;> exact ⟨rfl, rfl, rfl, rfl, rfl⟩

/-- C2, failing input: a line that decodes to a truthy non-object JSON value
(such as `[1,2,3]`) produces no error result at all and terminates the
process — the `except` handler's own `payload.get("id")` raises uncaught
(worker.py line 179) — so any requests on later lines are lost: the loop's
output for the whole remaining stream is empty.  By contrast a decode
failure does produce the single null-id error envelope the claim
describes. -/
theorem claim_C2 (fs : String → Bool) (engine : Engine) (attrError : String)
    (rest : List RawLine) :
    handleRawLine fs engine (LineInput.nonDict true attrError) = LineOutcome.crash ∧
    run_server fs engine (RawLine.line (LineInput.nonDict true attrError) :: rest) = [] ∧
    handleRawLine fs engine (LineInput.decodeFailure attrError) =
      LineOutcome.ok [WireMsg.result_error none attrError] :=
  ⟨rfl, rfl, rfl⟩

/-- C5: for every handled line in server mode, exactly one result-typed
message is emitted, it is the last message of the line's output, and every
message of that output (progress, segment, result alike) references the
line's request id (the parsed id, or null when the line did not parse). -/
theorem claim_C5 (fs : String → Bool) (engine : Engine) (input : Except String Payload) :
    ((handleLine fs engine input).filter isResultMsg).length = 1 ∧
    (∃ m, (handleLine fs engine input).getLast? = some m ∧ isResultMsg m = true) ∧
    (∀ m ∈ handleLine fs engine input, wireId m = lineReqId input) := by
  match input with
  | Except.error e =>
      refine ⟨rfl, ⟨WireMsg.result_error none e, rfl, rfl⟩, ?_⟩
      intro m hm
      simp [handleLine] at hm
      subst hm
      rfl
  | Except.ok p =>
      match ha : p.audio_file with
      | none =>
          refine ⟨?_, ⟨WireMsg.result_error p.id "audio_file is required", ?_, rfl⟩, ?_⟩
          · simp [handleLine, ha, isResultMsg]
          · simp [handleLine, ha]
          · intro m hm
            simp [handleLine, ha] at hm
            subst hm
            rfl
      | some audio_file =>
          by_cases he : audio_file = ""
          · refine ⟨?_, ⟨WireMsg.result_error p.id "audio_file is required", ?_, rfl⟩, ?_⟩
            · simp [handleLine, ha, he, isResultMsg]
            · simp [handleLine, ha, he]
            · intro m hm
              simp [handleLine, ha, he] at hm
              subst hm
              rfl
          · have hshape : ∃ res, isResultMsg res = true ∧ wireId res = p.id ∧
                handleLine fs engine (Except.ok p) =
                  ((transcribe_with_model fs engine audio_file (durationOf p)
                      (decide (0 < durationOf p)) true
                      (some (options_of_payload p))).events.map (toWire p.id)) ++ [res] := by
              simp only [handleLine, ha, if_neg he]
              cases hr : (transcribe_with_model fs engine audio_file (durationOf p)
                  (decide (0 < durationOf p)) true (some (options_of_payload p))).result with
              | ok r => exact ⟨WireMsg.result p.id r, rfl, rfl, rfl⟩
              | error e => exact ⟨WireMsg.result_error p.id e, rfl, rfl, rfl⟩
            obtain ⟨res, hres, hid, heq⟩ := hshape
            rw [heq]
            refine ⟨?_, ⟨res, List.getLast?_concat _, hres⟩, ?_⟩
            · rw [List.filter_append]
              have h1 : ((transcribe_with_model fs engine audio_file (durationOf p)
                  (decide (0 < durationOf p)) true
                  (some (options_of_payload p))).events.map (toWire p.id)).filter
                    isResultMsg = [] := by
                apply List.filter_eq_nil_iff.mpr
                intro m hm
                obtain ⟨ev, _, rfl⟩ := List.mem_map.mp hm
                simp [toWire_not_result]
              rw [h1]
              simp [hres]
            · intro m hm
              rcases List.mem_append.mp hm with hm | hm
              · obtain ⟨ev, _, rfl⟩ := List.mem_map.mp hm
                exact wireId_toWire p.id ev
              · simp at hm
                subst hm
                exact hid

/-- C7: for every parsed request naming an audio path that does not exist,
the orchestrator raises the not-found error without ever invoking the
engine's transcribe operation, and the request's output is the single error
result envelope. -/
theorem claim_C7 (fs : String → Bool) (engine : Engine) (p : Payload) (audio_file : String)
    (ha : p.audio_file = some audio_file) (hne : ¬ audio_file = "")
    (hfs : fs audio_file = false) :
    (transcribe_with_model fs engine audio_file (durationOf p)
        (decide (0 < durationOf p)) true (some (options_of_payload p))).engineCalled = false ∧
    (transcribe_with_model fs engine audio_file (durationOf p)
        (decide (0 < durationOf p)) true (some (options_of_payload p))).result =
      Except.error ("File not found: " ++ audio_file) ∧
    handleLine fs engine (Except.ok p) =
      [WireMsg.result_error p.id ("File not found: " ++ audio_file)] := by
  have hout : transcribe_with_model fs engine audio_file (durationOf p)
      (decide (0 < durationOf p)) true (some (options_of_payload p)) =
      { engineCalled := false, events := [],
        result := Except.error ("File not found: " ++ audio_file) } := by
    unfold transcribe_with_model
    rw [if_pos hfs]
  refine ⟨by rw [hout], by rw [hout], ?_⟩
  simp only [handleLine, ha, if_neg hne]
  rw [hout]
  rfl

/-- Witness for C7: the request `payloadMissingFile` against the empty file
system raises the not-found error with the engine never invoked, and the
line's output is the single error envelope. -/
theorem claim_C7_witness :
    payloadMissingFile.audio_file = some "missing.wav" ∧
    ¬ "missing.wav" = "" ∧
    fsNone "missing.wav" = false ∧
    ((transcribe_with_model fsNone stubEngine "missing.wav" (durationOf payloadMissingFile)
        (decide (0 < durationOf payloadMissingFile)) true
        (some (options_of_payload payloadMissingFile))).engineCalled = false ∧
      (transcribe_with_model fsNone stubEngine "missing.wav" (durationOf payloadMissingFile)
          (decide (0 < durationOf payloadMissingFile)) true
          (some (options_of_payload payloadMissingFile))).result =
        Except.error ("File not found: " ++ "missing.wav") ∧
      handleLine fsNone stubEngine (Except.ok payloadMissingFile) =
        [WireMsg.result_error payloadMissingFile.id ("File not found: " ++ "missing.wav")]) :=
  ⟨rfl, by decide, rfl,
    claim_C7 fsNone stubEngine payloadMissingFile "missing.wav" rfl (by decide) rfl⟩

/-- C4: for every request with a positive duration hint and a progress sink,
each delivered progress value is of the form
`min(100, round(segment.end / duration * 100, 1))` for one of the engine's
segments, and the delivered sequence is strictly increasing, duplicate-free
and contained in `[0, 100]` (segment end timestamps are non-negative
seconds). -/
theorem claim_C4 (fs : String → Bool) (engine : Engine) (file_path : String)
    (total_duration : ℚ) (options : Option Opts)
    (ht : 0 < total_duration)
    (hends : ∀ s ∈ (engine file_path (transcribe_kwargs (options.getD {}))).segs,
      0 ≤ s.«end») :
    List.Chain' (fun a b => a < b)
      (progressOf (transcribe_with_model fs engine file_path total_duration
        true true options).events) ∧
    (progressOf (transcribe_with_model fs engine file_path total_duration
        true true options).events).Nodup ∧
    (∀ q ∈ progressOf (transcribe_with_model fs engine file_path total_duration
        true true options).events, 0 ≤ q ∧ q ≤ 100) ∧
    (∀ q ∈ progressOf (transcribe_with_model fs engine file_path total_duration
        true true options).events,
      ∃ s ∈ (engine file_path (transcribe_kwargs (options.getD {}))).segs,
        q = pctOf total_duration s) := by
  by_cases hfs : fs file_path = false
  · have hev : (transcribe_with_model fs engine file_path total_duration
        true true options).events = [] := by
      unfold transcribe_with_model
      rw [if_pos hfs]
    rw [hev]
    simp [progressOf]
  · have hfs' : fs file_path = true := by revert hfs; cases fs file_path <;> simp
    rw [transcribe_events fs engine file_path total_duration true true options hfs']
    have hinv := drain_ProgInv true true total_duration
      (engine file_path (transcribe_kwargs (options.getD {}))).segs initState
      (by constructor <;> simp [ProgInv, initState, progressOf])
    obtain ⟨hchain, _⟩ := hinv
    have hmem : ∀ q ∈ progressOf (drain true true total_duration
        (engine file_path (transcribe_kwargs (options.getD {}))).segs initState).events,
        ∃ s ∈ (engine file_path (transcribe_kwargs (options.getD {}))).segs,
          q = pctOf total_duration s := by
      intro q hq
      rcases progressOf_drain_mem true true total_duration
          (engine file_path (transcribe_kwargs (options.getD {}))).segs initState q hq with
        h0 | h
      · simp [initState, progressOf] at h0
      · exact h
    refine ⟨hchain, ?_, ?_, hmem⟩
    · exact (List.chain'_iff_pairwise.mp hchain).imp ne_of_lt
    · intro q hq
      obtain ⟨s, hs, rfl⟩ := hmem q hq
      exact pctOf_bounds total_duration s ht (hends s hs)

/-- Witness for C4: the end-to-end example of the specification (§8), duration
hint 10 against the stub engine's segments ending at 4 and 9. -/
theorem claim_C4_witness :
    (0 : ℚ) < 10 ∧
    (∀ s ∈ (stubEngine "a.wav" (transcribe_kwargs ((none : Option Opts).getD {}))).segs,
      0 ≤ s.«end») ∧
    (List.Chain' (fun a b => a < b)
      (progressOf (transcribe_with_model fsAll stubEngine "a.wav" 10 true true none).events) ∧
    (progressOf (transcribe_with_model fsAll stubEngine "a.wav" 10 true true none).events).Nodup ∧
    (∀ q ∈ progressOf (transcribe_with_model fsAll stubEngine "a.wav" 10
        true true none).events, 0 ≤ q ∧ q ≤ 100) ∧
    (∀ q ∈ progressOf (transcribe_with_model fsAll stubEngine "a.wav" 10
        true true none).events,
      ∃ s ∈ (stubEngine "a.wav" (transcribe_kwargs ((none : Option Opts).getD {}))).segs,
        q = pctOf 10 s)) :=
  ⟨by norm_num,
    by
      intro s hs
      simp [stubEngine, stubSegs] at hs
      rcases hs with rfl | rfl <;> norm_num,
    claim_C4 fsAll stubEngine "a.wav" 10 none (by norm_num)
      (by
        intro s hs
        simp [stubEngine, stubSegs] at hs
        rcases hs with rfl | rfl <;> norm_num)⟩

/-- C6: for every transcription in which the engine completes its segment
sequence, the returned result's full text is the exact separator-free
concatenation of the texts of the segments it reports, and the texts of the
emitted segment events equal, in order, the texts of those same segments. -/
theorem claim_C6 (fs : String → Bool) (engine : Engine) (file_path : String)
    (total_duration : ℚ) (hp : Bool) (options : Option Opts)
    (hfs : fs file_path = true)
    (herr : (engine file_path (transcribe_kwargs (options.getD {}))).err = none) :
    ∃ r, (transcribe_with_model fs engine file_path total_duration hp true options).result =
        Except.ok r ∧
      r.text = String.join (r.segments.map Segment.text) ∧
      segmentTextsOf (transcribe_with_model fs engine file_path total_duration
          hp true options).events =
        r.segments.map Segment.text := by
  have hres : (transcribe_with_model fs engine file_path total_duration hp true
      options).result = Except.ok
      { language := (engine file_path (transcribe_kwargs (options.getD {}))).info.language
        language_probability :=
          (engine file_path (transcribe_kwargs (options.getD {}))).info.language_probability
        duration := (engine file_path (transcribe_kwargs (options.getD {}))).info.duration
        segments := (drain true hp total_duration
          (engine file_path (transcribe_kwargs (options.getD {}))).segs
          initState).result_segments
        text := (drain true hp total_duration
          (engine file_path (transcribe_kwargs (options.getD {}))).segs
          initState).full_text } := by
    unfold transcribe_with_model
    rw [if_neg (by simp [hfs])]
    dsimp only
    rw [herr]
  refine ⟨_, hres, ?_, ?_⟩
  · show (drain true hp total_duration
        (engine file_path (transcribe_kwargs (options.getD {}))).segs
        initState).full_text =
      String.join (((drain true hp total_duration
        (engine file_path (transcribe_kwargs (options.getD {}))).segs
        initState).result_segments).map Segment.text)
    rw [drain_full_text, drain_result_segments]
    simp [initState]
  · rw [transcribe_events fs engine file_path total_duration hp true options hfs]
    show segmentTextsOf (drain true hp total_duration
        (engine file_path (transcribe_kwargs (options.getD {}))).segs initState).events =
      ((drain true hp total_duration
        (engine file_path (transcribe_kwargs (options.getD {}))).segs
        initState).result_segments).map Segment.text
    rw [segmentTextsOf_drain, drain_result_segments]
    simp [initState, segmentTextsOf]

/-- Witness for C6: the stub engine's run on the example request produces a
result whose text is the concatenation of its segments' texts, matching the
emitted segment events. -/
theorem claim_C6_witness :
    fsAll "a.wav" = true ∧
    (stubEngine "a.wav" (transcribe_kwargs ((none : Option Opts).getD {}))).err = none ∧
    (∃ r, (transcribe_with_model fsAll stubEngine "a.wav" 10 true true none).result =
        Except.ok r ∧
      r.text = String.join (r.segments.map Segment.text) ∧
      segmentTextsOf (transcribe_with_model fsAll stubEngine "a.wav" 10
          true true none).events =
        r.segments.map Segment.text) :=
  ⟨rfl, rfl, claim_C6 fsAll stubEngine "a.wav" 10 true none rfl rfl⟩

/-- C9: in one-shot mode the process prints exactly one bare message, which
is either the transcription result or an error object; no progress or
segment event is ever printed. -/
theorem claim_C9 (modelLoad : Except String Unit) (fs : String → Bool)
    (engine : Engine) (audio_file : String) :
    ∃ m, run_single_file modelLoad fs engine audio_file = [m] ∧
      ((∃ r, m = OneShotMsg.result r) ∨ (∃ e, m = OneShotMsg.error e)) := by
  match modelLoad with
  | Except.error e =>
      exact ⟨OneShotMsg.error ("Transcription failed: " ++ e), rfl, Or.inr ⟨_, rfl⟩⟩
  | Except.ok u =>
      have hev := transcribe_events_off fs engine audio_file 0 none
      cases hr : (transcribe_with_model fs engine audio_file 0 false false none).result with
      | ok r =>
          refine ⟨OneShotMsg.result r, ?_, Or.inl ⟨r, rfl⟩⟩
          show (transcribe_with_model fs engine audio_file 0 false false
              none).events.map toOneShot ++ _ = _
          rw [hev, hr]
          rfl
      | error e =>
          refine ⟨OneShotMsg.error ("Transcription failed: " ++ e), ?_, Or.inr ⟨_, rfl⟩⟩
          show (transcribe_with_model fs engine audio_file 0 false false
              none).events.map toOneShot ++ _ = _
          rw [hev, hr]
          rfl

/-- C10: when the engine's segment sequence raises mid-drain in server mode,
the events already emitted are exactly those a completing run over the same
yielded segments would have emitted (none is retracted), the line's output is
those events followed by exactly one error result envelope carrying the error
text and the original request id, and no success result is ever emitted for
that line. -/
theorem claim_C10 (fs : String → Bool) (engine : Engine) (p : Payload)
    (audio_file e : String)
    (ha : p.audio_file = some audio_file) (hne : ¬ audio_file = "")
    (hfs : fs audio_file = true)
    (herr : (engine audio_file (transcribe_kwargs (options_of_payload p))).err = some e) :
    (transcribe_with_model fs engine audio_file (durationOf p)
        (decide (0 < durationOf p)) true (some (options_of_payload p))).events =
      (transcribe_with_model fs
          (fun path kw => { engine path kw with err := none }) audio_file (durationOf p)
          (decide (0 < durationOf p)) true (some (options_of_payload p))).events ∧
    handleLine fs engine (Except.ok p) =
      (transcribe_with_model fs engine audio_file (durationOf p)
          (decide (0 < durationOf p)) true
          (some (options_of_payload p))).events.map (toWire p.id)
        ++ [WireMsg.result_error p.id e] ∧
    (∀ m ∈ handleLine fs engine (Except.ok p), ∀ i r, ¬ m = WireMsg.result i r) := by
  have hres : (transcribe_with_model fs engine audio_file (durationOf p)
      (decide (0 < durationOf p)) true (some (options_of_payload p))).result =
      Except.error e := by
    unfold transcribe_with_model
    rw [if_neg (by simp [hfs])]
    dsimp only
    simp only [Option.getD_some]
    rw [herr]
  have hline : handleLine fs engine (Except.ok p) =
      (transcribe_with_model fs engine audio_file (durationOf p)
          (decide (0 < durationOf p)) true
          (some (options_of_payload p))).events.map (toWire p.id)
        ++ [WireMsg.result_error p.id e] := by
    simp only [handleLine, ha, if_neg hne]
    rw [hres]
  refine ⟨?_, hline, ?_⟩
  · rw [transcribe_events fs engine audio_file (durationOf p)
        (decide (0 < durationOf p)) true (some (options_of_payload p)) hfs,
      transcribe_events fs (fun path kw => { engine path kw with err := none }) audio_file
        (durationOf p) (decide (0 < durationOf p)) true (some (options_of_payload p)) hfs]
  · intro m hm i r
    rw [hline] at hm
    rcases List.mem_append.mp hm with hm | hm
    · obtain ⟨ev, _, rfl⟩ := List.mem_map.mp hm
      cases ev <;> simp [toWire]
    · simp at hm
      subst hm
      simp

/-- Witness for C10: the failing stub engine yields the two example segments
and then raises "boom"; the line's output keeps both segment events and both
progress events and ends with the single error envelope for id 1. -/
theorem claim_C10_witness :
    payload1.audio_file = some "a.wav" ∧
    ¬ "a.wav" = "" ∧
    fsAll "a.wav" = true ∧
    (stubEngineFail "a.wav" (transcribe_kwargs (options_of_payload payload1))).err =
      some "boom" ∧
    ((transcribe_with_model fsAll stubEngineFail "a.wav" (durationOf payload1)
        (decide (0 < durationOf payload1)) true (some (options_of_payload payload1))).events =
      (transcribe_with_model fsAll
          (fun path kw => { stubEngineFail path kw with err := none }) "a.wav"
          (durationOf payload1) (decide (0 < durationOf payload1)) true
          (some (options_of_payload payload1))).events ∧
    handleLine fsAll stubEngineFail (Except.ok payload1) =
      (transcribe_with_model fsAll stubEngineFail "a.wav" (durationOf payload1)
          (decide (0 < durationOf payload1)) true
          (some (options_of_payload payload1))).events.map (toWire payload1.id)
        ++ [WireMsg.result_error payload1.id "boom"] ∧
    (∀ m ∈ handleLine fsAll stubEngineFail (Except.ok payload1),
      ∀ i r, ¬ m = WireMsg.result i r)) :=
  ⟨rfl, by decide, rfl, rfl,
    claim_C10 fsAll stubEngineFail payload1 "a.wav" "boom" rfl (by decide) rfl rfl⟩

end Miaoji
